import Mathlib

/-!
Shallow embedding of the GPU-Template renderer core (Rust sources under
`src/renderer/` and `src/application.rs`) together with proofs about its
camera math, surface (re)configuration, frame recording order and
error-handling behaviour.

Modelling conventions:

* `f32` scalars are modelled as exact real numbers (`ℝ`); `f32` literals are
  embedded by their exact IEEE-754 single-precision values where the exact
  value matters (notably `std::f32::consts::FRAC_PI_2`).
* `glam::Vec3` is a record of three real components with the componentwise
  operations the code uses (`+`, unary `-`, scalar multiply, `cross`,
  `with_y`, `length`, `normalize_or_zero`).
* GPU calls are effects on an external device; what the code decides — the
  values written into descriptors and configurations, and the order of the
  recorded commands — is embedded as data (records and traces).
-/

namespace GPUTemplate

/-- A 3-component vector, modelling `glam::Vec3` with exact real scalars. -/
structure Vec3 where
  x : ℝ
  y : ℝ
  z : ℝ

/-- Componentwise vector addition (`glam` `Vec3 + Vec3`). -/
def Vec3.add (v w : Vec3) : Vec3 :=
  ⟨v.x + w.x, v.y + w.y, v.z + w.z⟩

/-- Componentwise vector negation (`glam` unary `-`). -/
def Vec3.neg (v : Vec3) : Vec3 :=
  ⟨-v.x, -v.y, -v.z⟩

/-- The zero vector (`glam::Vec3::ZERO`, the starting value of `Sum`). -/
def Vec3.zero : Vec3 :=
  ⟨0, 0, 0⟩

instance : Add Vec3 := ⟨Vec3.add⟩

instance : Neg Vec3 := ⟨Vec3.neg⟩

instance : Zero Vec3 := ⟨Vec3.zero⟩

/-- Scalar multiplication on the right (`glam` `Vec3 * f32`). -/
def Vec3.smul (v : Vec3) (k : ℝ) : Vec3 :=
  ⟨v.x * k, v.y * k, v.z * k⟩

/-- Dot product (`glam` `Vec3::dot`). -/
def Vec3.dot (v w : Vec3) : ℝ :=
  v.x * w.x + v.y * w.y + v.z * w.z

/-- Cross product (`glam` `Vec3::cross`). -/
def Vec3.cross (v w : Vec3) : Vec3 :=
  ⟨v.y * w.z - v.z * w.y, v.z * w.x - v.x * w.z, v.x * w.y - v.y * w.x⟩

/-- Replace the `y` component (`glam` `Vec3::with_y`). -/
def Vec3.with_y (v : Vec3) (y : ℝ) : Vec3 :=
  ⟨v.x, y, v.z⟩

/-- Euclidean length (`glam` `Vec3::length`). -/
noncomputable def Vec3.length (v : Vec3) : ℝ :=
  Real.sqrt (v.dot v)

open Classical in
/-- `glam` `Vec3::normalize_or_zero`: the unit vector in the direction of `v`,
or zero when `v` is zero (in the `f32` source, when the reciprocal of the
length is not finite). -/
noncomputable def Vec3.normalize_or_zero (v : Vec3) : Vec3 :=
  if v = Vec3.zero then Vec3.zero else v.smul v.length⁻¹

/-- A first person camera without roll (`src/renderer/camera.rs`, struct
`Camera`). -/
structure Camera where
  position : Vec3
  yaw : ℝ
  pitch : ℝ
  fov : ℝ
  aspect_ratio : ℝ
  movement_sensitivity : ℝ
  mouse_sensitivity : ℝ

/-- The logical key codes `Camera::update_position` inspects (a fragment of
`winit::keyboard::KeyCode`). -/
inductive KeyCode where
  | keyW
  | keyA
  | keyS
  | keyD
  | space
  | shiftLeft
  | controlLeft
deriving DecidableEq

/-- The exact value of the 32-bit float constant `std::f32::consts::FRAC_PI_2`:
the IEEE-754 single-precision number nearest to π/2, namely
13176795 · 2⁻²³ = 1.57079637050628662109375, which is slightly greater
than π/2. -/
noncomputable def FRAC_PI_2 : ℝ :=
  13176795 / 8388608

/-- Rust `f32::clamp(lo, hi)` (for `lo ≤ hi`): `lo` when below, `hi` when
above, the input otherwise. -/
noncomputable def clampR (v lo hi : ℝ) : ℝ :=
  if v < lo then lo else if hi < v then hi else v

/-- `Camera::forward` (camera.rs lines 38-44): the view direction derived
from yaw and pitch. -/
noncomputable def Camera.forward (c : Camera) : Vec3 :=
  ⟨Real.sin c.yaw * Real.cos c.pitch,
   Real.sin c.pitch,
   -Real.cos c.yaw * Real.cos c.pitch⟩

/-- The `direction_mapping` array built inside `Camera::update_position`
(camera.rs lines 48-60): each movement key paired with its world-space
direction contribution. -/
noncomputable def Camera.direction_mapping (c : Camera) : List (KeyCode × Vec3) :=
  let up : Vec3 := ⟨0, 1, 0⟩
  let forward_xz := c.forward.with_y 0
  let right_xz := forward_xz.cross up
  [(.keyW, forward_xz), (.keyS, -forward_xz),
   (.keyD, right_xz), (.keyA, -right_xz),
   (.space, up), (.shiftLeft, -up)]

/-- The summed (pre-normalization) movement contribution of all held keys:
camera.rs lines 62-65, `filter_map(...).sum::<Vec3>()`. -/
noncomputable def Camera.movement_sum (c : Camera) (key_down : KeyCode → Bool) : Vec3 :=
  ((c.direction_mapping.filterMap fun p =>
      if key_down p.1 then some p.2 else none).foldl (fun a b => a + b) 0)

/-- `Camera::update_position` (camera.rs lines 47-75): normalize the summed
direction (or zero), apply the sprint boost, and advance the position by
`delta_position * dt * movement_sensitivity * speed_boost`. -/
noncomputable def Camera.update_position (c : Camera) (key_down : KeyCode → Bool) (dt : ℝ) :
    Camera :=
  let delta_position := (c.movement_sum key_down).normalize_or_zero
  let speed_boost : ℝ := if key_down .controlLeft then 1.5 else 1.0
  { c with position :=
      c.position + ((delta_position.smul dt).smul c.movement_sensitivity).smul speed_boost }

/-- `Camera::update_orientation` (camera.rs lines 78-85): integrate the mouse
delta into yaw and pitch, then clamp pitch to `[-FRAC_PI_2, FRAC_PI_2]`. -/
noncomputable def Camera.update_orientation (c : Camera) (delta : ℝ × ℝ) : Camera :=
  let dx := delta.1
  let dy := delta.2
  { c with
      pitch := clampR (c.pitch - dy * c.mouse_sensitivity) (-FRAC_PI_2) FRAC_PI_2,
      yaw := c.yaw + dx * c.mouse_sensitivity }

/-- `winit::dpi::PhysicalSize<u32>`. -/
structure PhysicalSize where
  width : ℕ
  height : ℕ
deriving DecidableEq

/-- `Camera::resize` (camera.rs lines 88-92): recompute the aspect ratio from
the new window size. -/
noncomputable def Camera.resize (c : Camera) (size : PhysicalSize) : Camera :=
  { c with aspect_ratio := (size.width : ℝ) / (size.height : ℝ) }

/-- `wgpu::TextureUsages` (only the flag the code uses). -/
inductive TextureUsages where
  | renderAttachment
deriving DecidableEq

/-- `wgpu::TextureFormat` (only the format the code uses). -/
inductive TextureFormat where
  | bgra8Unorm
deriving DecidableEq

/-- `wgpu::PresentMode` (only the mode the code uses). -/
inductive PresentMode where
  | autoVsync
deriving DecidableEq

/-- `wgpu::CompositeAlphaMode` (only the mode the code uses). -/
inductive CompositeAlphaMode where
  | auto
deriving DecidableEq

/-- `wgpu::SurfaceConfiguration`, the fields the code sets. -/
structure SurfaceConfiguration where
  width : ℕ
  height : ℕ
  usage : TextureUsages
  format : TextureFormat
  present_mode : PresentMode
  desired_maximum_frame_latency : ℕ
  alpha_mode : CompositeAlphaMode
  view_formats : List TextureFormat
deriving DecidableEq

/-- `Renderer::get_surface_config` (mod.rs lines 173-189): the startup
configuration derived from the window's inner size, with both dimensions
clamped up to at least 1. -/
def Renderer.get_surface_config (inner_size : PhysicalSize) : SurfaceConfiguration :=
  let width := max inner_size.width 1
  let height := max inner_size.height 1
  { width := width
    height := height
    usage := .renderAttachment
    format := .bgra8Unorm
    present_mode := .autoVsync
    desired_maximum_frame_latency := 1
    alpha_mode := .auto
    view_formats := [] }

/-- `Renderer::resize` (mod.rs lines 163-170): store the new width and height
into the surface configuration verbatim (the subsequent
`surface.configure` call reapplies the stored configuration to the live
surface and is an external effect). -/
def Renderer.resize (config : SurfaceConfiguration) (size : PhysicalSize) :
    SurfaceConfiguration :=
  { config with width := size.width, height := size.height }

/-- `wgpu::SurfaceError`, the error cases `Surface::get_current_texture` can
return. -/
inductive SurfaceError where
  | timeout
  | outdated
  | lost
  | outOfMemory
  | other
deriving DecidableEq

/-- An acquired presentable surface image. -/
structure SurfaceTexture where
  id : ℕ
deriving DecidableEq

/-- How a call to `Renderer::render` resolves its acquisition step. -/
inductive RenderOutcome where
  | presented (t : SurfaceTexture)
  | panicked
deriving DecidableEq

/-- The acquisition step of `Renderer::render` (mod.rs line 111):
`self.surface.get_current_texture().unwrap()`. The surface is external;
`acquisitions` lists the results that successive `get_current_texture`
calls would return. The code performs exactly one call and unwraps it:
an `Ok` image is rendered and presented, any `Err` panics. -/
def Renderer.render_acquire (acquisitions : List (Except SurfaceError SurfaceTexture)) :
    RenderOutcome :=
  match acquisitions with
  | .ok t :: _ => .presented t
  | .error _ :: _ => .panicked
  | [] => .panicked

/-- The operations `Renderer::render_ui` records against the UI renderer, in
order. -/
inductive UIEvent where
  | updateTexture (id : ℕ)
  | updateBuffers
  | beginRenderPass
  | draw
  | freeTexture (id : ℕ)
deriving DecidableEq

/-- `egui::TexturesDelta`: texture ids added/changed this frame (`set`,
with their image payloads elided) and texture ids to free (`free`). -/
structure TexturesDelta where
  set : List ℕ
  free : List ℕ

/-- The ordered trace of `Renderer::render_ui` (mod.rs lines 191-244):
`update_texture` for every entry of `textures_delta.set`, then
`update_buffers`, then the UI render pass with its single draw, then
`free_texture` for every entry of `textures_delta.free`. -/
def Renderer.render_ui (textures_delta : TexturesDelta) : List UIEvent :=
  (textures_delta.set.map UIEvent.updateTexture)
    ++ [UIEvent.updateBuffers, UIEvent.beginRenderPass, UIEvent.draw]
    ++ (textures_delta.free.map UIEvent.freeTexture)

/-- A bind group layout, recorded as the list of binding indices it
declares. -/
structure BindGroupLayout where
  entries : List ℕ
deriving DecidableEq

/-- A `wgpu::PushConstantRange` (none are used by the code). -/
structure PushConstantRange where
deriving DecidableEq

/-- `wgpu::PipelineLayoutDescriptor`, the fields the code sets. -/
structure PipelineLayoutDesc where
  bind_group_layouts : List BindGroupLayout
  push_constant_ranges : List PushConstantRange
deriving DecidableEq

/-- The pipeline layout created for the triangle pipeline by
`Pipelines::new` (pipelines.rs lines 14-18): it declares no bind group
layouts (`bind_group_layouts: &[]`) and no push-constant ranges. -/
def Pipelines.triangle_pipeline_layout : PipelineLayoutDesc :=
  { bind_group_layouts := [], push_constant_ranges := [] }

/-- The commands `Renderer::render` records in the world (triangle) pass. -/
inductive WorldPassCmd where
  | setBindGroup (index : ℕ)
  | setPipeline
  | draw (vertices instances : ℕ)
deriving DecidableEq

/-- The world pass recorded by `Renderer::render` (mod.rs lines 148-151):
bind the camera bind group at slot 0, set the triangle pipeline, and draw
3 vertices / 1 instance. -/
def Renderer.world_pass : List WorldPassCmd :=
  [.setBindGroup 0, .setPipeline, .draw 3 1]

/-- A concrete camera used as a test input: position and sensitivities as in
`App::new` (application.rs lines 41-49) except `mouse_sensitivity = 1`,
so one unit of mouse delta is one radian. -/
noncomputable def camera0 : Camera :=
  { position := ⟨0, 0, 2⟩
    yaw := 0
    pitch := 0
    fov := 1
    aspect_ratio := 4 / 3
    movement_sensitivity := 2
    mouse_sensitivity := 1 }

/-- A key predicate holding exactly the forward key `W`. -/
def key_down_w : KeyCode → Bool :=
  fun k => match k with
  | .keyW => true
  | _ => false

/-- A key predicate holding both the forward key `W` and the back key `S`. -/
def key_down_ws : KeyCode → Bool :=
  fun k => match k with
  | .keyW => true
  | .keyS => true
  | _ => false

/-! Helper lemmas about the vector operations. -/

theorem Vec3.add_def (v w : Vec3) : v + w = ⟨v.x + w.x, v.y + w.y, v.z + w.z⟩ :=
  rfl

theorem Vec3.neg_def (v : Vec3) : -v = ⟨-v.x, -v.y, -v.z⟩ :=
  rfl

theorem Vec3.zero_def : (0 : Vec3) = ⟨0, 0, 0⟩ :=
  rfl

theorem Vec3.dot_self_nonneg (v : Vec3) : 0 ≤ v.dot v := by
  have hx := mul_self_nonneg v.x
  have hy := mul_self_nonneg v.y
  have hz := mul_self_nonneg v.z
  simp only [Vec3.dot]
  linarith

theorem Vec3.dot_self_eq_zero (v : Vec3) : v.dot v = 0 ↔ v = Vec3.zero := by
  obtain ⟨a, b, c⟩ := v
  simp only [Vec3.dot, Vec3.zero, Vec3.mk.injEq]
  constructor
  · intro h
    have ha : a * a = 0 := le_antisymm
      (by nlinarith [mul_self_nonneg b, mul_self_nonneg c]) (mul_self_nonneg a)
    have hb : b * b = 0 := le_antisymm
      (by nlinarith [mul_self_nonneg a, mul_self_nonneg c]) (mul_self_nonneg b)
    have hc : c * c = 0 := le_antisymm
      (by nlinarith [mul_self_nonneg a, mul_self_nonneg b]) (mul_self_nonneg c)
    exact ⟨mul_self_eq_zero.mp ha, mul_self_eq_zero.mp hb, mul_self_eq_zero.mp hc⟩
  · rintro ⟨rfl, rfl, rfl⟩
    ring

theorem Vec3.length_nonneg (v : Vec3) : 0 ≤ v.length :=
  Real.sqrt_nonneg _

theorem Vec3.length_eq_zero_iff (v : Vec3) : v.length = 0 ↔ v = Vec3.zero := by
  rw [Vec3.length, Real.sqrt_eq_zero (Vec3.dot_self_nonneg v), Vec3.dot_self_eq_zero]

theorem Vec3.length_pos (v : Vec3) (h : v ≠ Vec3.zero) : 0 < v.length := by
  rcases lt_or_eq_of_le (Vec3.length_nonneg v) with hlt | heq
  · exact hlt
  · exact absurd ((Vec3.length_eq_zero_iff v).mp heq.symm) h

theorem Vec3.length_smul (v : Vec3) (k : ℝ) : (v.smul k).length = |k| * v.length := by
  have h : (v.smul k).dot (v.smul k) = k ^ 2 * v.dot v := by
    simp only [Vec3.smul, Vec3.dot]
    ring
  rw [Vec3.length, h, Real.sqrt_mul (sq_nonneg k), Real.sqrt_sq_eq_abs, Vec3.length]

theorem Vec3.smul_zero_vec (k : ℝ) : Vec3.zero.smul k = Vec3.zero := by
  simp [Vec3.smul, Vec3.zero]

theorem Vec3.add_zero_vec (v : Vec3) : v + Vec3.zero = v := by
  simp [Vec3.add_def, Vec3.zero]

theorem Vec3.zero_add_vec (v : Vec3) : Vec3.zero + v = v := by
  simp [Vec3.add_def, Vec3.zero]

theorem Vec3.normalize_or_zero_zero : Vec3.zero.normalize_or_zero = Vec3.zero := by
  simp [Vec3.normalize_or_zero]

theorem Vec3.normalize_or_zero_of_ne (v : Vec3) (h : v ≠ Vec3.zero) :
    v.normalize_or_zero = v.smul v.length⁻¹ := by
  simp [Vec3.normalize_or_zero, h]

theorem Vec3.smul_smul (v : Vec3) (a b : ℝ) : (v.smul a).smul b = v.smul (a * b) := by
  simp [Vec3.smul, mul_assoc]

theorem Vec3.add_add_neg (v w : Vec3) : v + w + -v = w := by
  obtain ⟨a, b, c⟩ := v
  obtain ⟨d, e, f⟩ := w
  simp only [Vec3.add_def, Vec3.neg_def, Vec3.mk.injEq]
  refine ⟨by ring, by ring, by ring⟩

theorem camera0_planar_ne : camera0.forward.with_y 0 ≠ Vec3.zero := by
  norm_num [Camera.forward, Vec3.with_y, camera0, Vec3.zero, Vec3.mk.injEq]

theorem clampR_mem (v lo hi : ℝ) (h : lo ≤ hi) :
    lo ≤ clampR v lo hi ∧ clampR v lo hi ≤ hi := by
  unfold clampR
  split_ifs with h1 h2
  · exact ⟨le_refl lo, h⟩
  · exact ⟨h, le_refl hi⟩
  · exact ⟨not_lt.mp h1, not_lt.mp h2⟩

/-! Claim theorems. -/

/-- C1 (code bug): the claim says `Renderer::resize(w, h)` clamps each
dimension up to 1 and never applies a 0 dimension literally, but the code
(mod.rs lines 163-170) stores the requested size verbatim into the surface
configuration. Evaluated at the failing inputs `resize(0, 5)` and
`resize(7, 0)` starting from the startup configuration of an 800×600
window, the configured width (resp. height) is 0. The startup path
`get_surface_config` does clamp both dimensions to at least 1, which the
last two conjuncts record. -/
theorem C1_resize_stores_zero_literally :
    (Renderer.resize (Renderer.get_surface_config ⟨800, 600⟩) ⟨0, 5⟩).width = 0 ∧
    (Renderer.resize (Renderer.get_surface_config ⟨800, 600⟩) ⟨7, 0⟩).height = 0 ∧
    (Renderer.get_surface_config ⟨0, 0⟩).width = 1 ∧
    (Renderer.get_surface_config ⟨0, 0⟩).height = 1 :=
  ⟨rfl, rfl, rfl, rfl⟩

/-- C2 counterexample: with the surface stale (first acquisition returns
`SurfaceError::Outdated`) and a retry that would succeed, `Renderer::render`
panics — `get_current_texture().unwrap()` (mod.rs line 111) — instead of
reconfiguring and retrying as the claim states. -/
theorem C2_counterexample_unwrap_panics :
    Renderer.render_acquire [Except.error SurfaceError.outdated, Except.ok ⟨0⟩]
      = RenderOutcome.panicked :=
  rfl

/-- C2 (amended): `Renderer::render` unwraps the single acquisition attempt:
a successful acquisition is rendered and presented, and any acquisition
failure — stale surface included — panics immediately; there is no
reconfigure-and-retry path. -/
theorem C2_render_acquire_behaviour :
    (∀ (t : SurfaceTexture) (rest : List (Except SurfaceError SurfaceTexture)),
        Renderer.render_acquire (Except.ok t :: rest) = RenderOutcome.presented t) ∧
    (∀ (e : SurfaceError) (rest : List (Except SurfaceError SurfaceTexture)),
        Renderer.render_acquire (Except.error e :: rest) = RenderOutcome.panicked) :=
  ⟨fun _ _ => rfl, fun _ _ => rfl⟩

/-- C4 (code bug): the world pass binds the camera bind group at slot 0
(mod.rs line 148), but the triangle pipeline layout declared by
`Pipelines::new` (pipelines.rs line 16) lists no bind group layouts at all —
in particular none at group 0 — so the declared layout does not match the
bind group the Renderer creates and binds. -/
theorem C4_pipeline_layout_declares_no_groups :
    WorldPassCmd.setBindGroup 0 ∈ Renderer.world_pass ∧
    Pipelines.triangle_pipeline_layout.bind_group_layouts = [] :=
  ⟨by decide, rfl⟩

/-- C9: `Renderer::resize` is idempotent on the stored surface
configuration — applying the same size twice yields exactly the state of
applying it once. -/
theorem C9_resize_idempotent (config : SurfaceConfiguration) (size : PhysicalSize) :
    Renderer.resize (Renderer.resize config size) size = Renderer.resize config size :=
  rfl

/-- C10: each camera mutation touches only its documented fields:
`update_position` only `position`, `update_orientation` only `yaw` and
`pitch`, `resize` only `aspect_ratio`; every other field is returned
unchanged. -/
theorem C10_camera_frame_conditions (c : Camera) (key_down : KeyCode → Bool) (dt : ℝ)
    (delta : ℝ × ℝ) (size : PhysicalSize) :
    ((c.update_position key_down dt).yaw = c.yaw ∧
      (c.update_position key_down dt).pitch = c.pitch ∧
      (c.update_position key_down dt).fov = c.fov ∧
      (c.update_position key_down dt).aspect_ratio = c.aspect_ratio ∧
      (c.update_position key_down dt).movement_sensitivity = c.movement_sensitivity ∧
      (c.update_position key_down dt).mouse_sensitivity = c.mouse_sensitivity) ∧
    ((c.update_orientation delta).position = c.position ∧
      (c.update_orientation delta).fov = c.fov ∧
      (c.update_orientation delta).aspect_ratio = c.aspect_ratio ∧
      (c.update_orientation delta).movement_sensitivity = c.movement_sensitivity ∧
      (c.update_orientation delta).mouse_sensitivity = c.mouse_sensitivity) ∧
    ((c.resize size).position = c.position ∧
      (c.resize size).yaw = c.yaw ∧
      (c.resize size).pitch = c.pitch ∧
      (c.resize size).fov = c.fov ∧
      (c.resize size).movement_sensitivity = c.movement_sensitivity ∧
      (c.resize size).mouse_sensitivity = c.mouse_sensitivity) :=
  ⟨⟨rfl, rfl, rfl, rfl, rfl, rfl⟩, ⟨rfl, rfl, rfl, rfl, rfl⟩, ⟨rfl, rfl, rfl, rfl, rfl, rfl⟩⟩

/-- C8: in the trace recorded by `Renderer::render_ui` there is a single
draw position `k`: every texture addition from the UI output is applied at
a position before `k` (and all of them are applied), every `updateTexture`
in the trace is before `k`, and every `freeTexture` in the trace is after
`k` (and every id in the removal set is freed after `k`) — the
add/draw/free order is never rearranged. -/
theorem C8_ui_add_draw_free_order (d : TexturesDelta) :
    ∃ k : ℕ, (Renderer.render_ui d)[k]? = some UIEvent.draw ∧
      (∀ a ∈ d.set, ∃ i : ℕ, i < k ∧
        (Renderer.render_ui d)[i]? = some (UIEvent.updateTexture a)) ∧
      (∀ (i : ℕ) (a : ℕ),
        (Renderer.render_ui d)[i]? = some (UIEvent.updateTexture a) → i < k) ∧
      (∀ (j : ℕ) (a : ℕ),
        (Renderer.render_ui d)[j]? = some (UIEvent.freeTexture a) → k < j) ∧
      (∀ a ∈ d.free, ∃ j : ℕ, k < j ∧
        (Renderer.render_ui d)[j]? = some (UIEvent.freeTexture a)) := by
  unfold Renderer.render_ui
  set s : List UIEvent := d.set.map UIEvent.updateTexture with hs
  set f : List UIEvent := d.free.map UIEvent.freeTexture with hf
  set mid : List UIEvent := [UIEvent.updateBuffers, UIEvent.beginRenderPass, UIEvent.draw]
    with hmid
  refine ⟨s.length + 2, ?_, ?_, ?_, ?_, ?_⟩
  · rw [List.append_assoc, List.getElem?_append_right (Nat.le_add_right s.length 2)]
    have h2 : s.length + 2 - s.length = 2 := by omega
    rw [h2, hmid, hf]
    simp
  · intro a ha
    obtain ⟨n, hn, rfl⟩ := List.getElem_of_mem ha
    have hns : n < s.length := by
      rw [hs, List.length_map]
      exact hn
    refine ⟨n, by omega, ?_⟩
    rw [List.append_assoc, List.getElem?_append_left hns, hs, List.getElem?_map,
      List.getElem?_eq_getElem hn]
    rfl
  · intro i a h
    rcases Nat.lt_or_ge i s.length with h1 | h1
    · omega
    · exfalso
      rw [List.append_assoc, List.getElem?_append_right h1] at h
      have hmem := List.getElem?_mem h
      rw [List.mem_append] at hmem
      rcases hmem with hm | hfm
      · rw [hmid] at hm
        simp at hm
      · rw [hf, List.mem_map] at hfm
        obtain ⟨b, _, hb⟩ := hfm
        simp at hb
  · intro j a h
    have hlen : (s ++ mid).length = s.length + 3 := by
      rw [List.length_append, hmid]
      rfl
    rcases Nat.lt_or_ge j (s ++ mid).length with h1 | h1
    · exfalso
      rw [List.getElem?_append_left h1] at h
      have hmem := List.getElem?_mem h
      rw [List.mem_append] at hmem
      rcases hmem with hsm | hm
      · rw [hs, List.mem_map] at hsm
        obtain ⟨b, _, hb⟩ := hsm
        simp at hb
      · rw [hmid] at hm
        simp at hm
    · omega
  · intro a ha
    obtain ⟨n, hn, rfl⟩ := List.getElem_of_mem ha
    have hlen : (s ++ mid).length = s.length + 3 := by
      rw [List.length_append, hmid]
      rfl
    refine ⟨s.length + 3 + n, by omega, ?_⟩
    rw [List.getElem?_append_right (by omega : (s ++ mid).length ≤ s.length + 3 + n)]
    have hidx : s.length + 3 + n - (s ++ mid).length = n := by omega
    rw [hidx, hf, List.getElem?_map, List.getElem?_eq_getElem hn]
    rfl

/-- C8 witness: the ordering property instantiated at the concrete UI
output that adds texture 4 and frees texture 9. -/
theorem C8_witness :
    ∃ k : ℕ, (Renderer.render_ui ⟨[4], [9]⟩)[k]? = some UIEvent.draw ∧
      (∀ a ∈ (⟨[4], [9]⟩ : TexturesDelta).set, ∃ i : ℕ, i < k ∧
        (Renderer.render_ui ⟨[4], [9]⟩)[i]? = some (UIEvent.updateTexture a)) ∧
      (∀ (i : ℕ) (a : ℕ),
        (Renderer.render_ui ⟨[4], [9]⟩)[i]? = some (UIEvent.updateTexture a) → i < k) ∧
      (∀ (j : ℕ) (a : ℕ),
        (Renderer.render_ui ⟨[4], [9]⟩)[j]? = some (UIEvent.freeTexture a) → k < j) ∧
      (∀ a ∈ (⟨[4], [9]⟩ : TexturesDelta).free, ∃ j : ℕ, k < j ∧
        (Renderer.render_ui ⟨[4], [9]⟩)[j]? = some (UIEvent.freeTexture a)) :=
  C8_ui_add_draw_free_order ⟨[4], [9]⟩

/-- C5: `Camera::forward` returns exactly
`(sin(yaw)·cos(pitch), sin(pitch), −cos(yaw)·cos(pitch))`, and this vector
has length exactly 1 (by the Pythagorean identity), hence in particular
within 1e-5 of unit length. -/
theorem C5_forward_unit_length (c : Camera) :
    c.forward = ⟨Real.sin c.yaw * Real.cos c.pitch, Real.sin c.pitch,
      -Real.cos c.yaw * Real.cos c.pitch⟩ ∧
    c.forward.length = 1 ∧ |c.forward.length - 1| ≤ 1e-5 := by
  have hdot : (c.forward).dot (c.forward) = 1 := by
    simp only [Camera.forward, Vec3.dot]
    linear_combination (Real.cos c.pitch) ^ 2 * Real.sin_sq_add_cos_sq c.yaw +
      Real.sin_sq_add_cos_sq c.pitch
  have hlen : c.forward.length = 1 := by
    rw [Vec3.length, hdot, Real.sqrt_one]
  refine ⟨rfl, hlen, ?_⟩
  rw [hlen]
  norm_num

/-- C3 counterexample: starting from pitch 0 with mouse sensitivity 1, the
single input delta (0, −2) drives the pitch to exactly `FRAC_PI_2`
(the f32 approximation of π/2, which is slightly greater than π/2), so the
resulting pitch is not strictly inside the open interval (−π/2, π/2): the
code clamps to the closed interval and the bound is reached. -/
theorem C3_counterexample_pitch_reaches_bound :
    ¬ ((camera0.update_orientation (0, -2)).pitch < Real.pi / 2) := by
  have hpitch : (camera0.update_orientation (0, -2)).pitch = FRAC_PI_2 := by
    norm_num [Camera.update_orientation, camera0, clampR, FRAC_PI_2]
  rw [hpitch]
  refine not_lt.mpr ?_
  have hπ : Real.pi < 3.14159265358979323847 := Real.pi_lt_d20
  rw [FRAC_PI_2]
  norm_num at hπ ⊢
  linarith

/-- C3 (amended): `update_orientation` adds `delta_x · mouse_sensitivity` to
yaw and sets pitch to the clamp of `pitch − delta_y · mouse_sensitivity`
into the CLOSED interval `[−FRAC_PI_2, FRAC_PI_2]` (the f32 approximation
of π/2): repeated arbitrarily large deltas saturate at the clamp bound —
which is reachable, and lies slightly above the real π/2 — and never wrap
past it. -/
theorem C3_orientation_clamped_closed (c : Camera) (delta : ℝ × ℝ) :
    (c.update_orientation delta).yaw = c.yaw + delta.1 * c.mouse_sensitivity ∧
    (c.update_orientation delta).pitch
      = clampR (c.pitch - delta.2 * c.mouse_sensitivity) (-FRAC_PI_2) FRAC_PI_2 ∧
    -FRAC_PI_2 ≤ (c.update_orientation delta).pitch ∧
    (c.update_orientation delta).pitch ≤ FRAC_PI_2 ∧
    Real.pi / 2 < FRAC_PI_2 := by
  have hb : -FRAC_PI_2 ≤ FRAC_PI_2 := by
    rw [FRAC_PI_2]
    norm_num
  have hm := clampR_mem (c.pitch - delta.2 * c.mouse_sensitivity) (-FRAC_PI_2) FRAC_PI_2 hb
  refine ⟨rfl, rfl, hm.1, hm.2, ?_⟩
  have hπ : Real.pi < 3.14159265358979323847 := Real.pi_lt_d20
  rw [FRAC_PI_2]
  norm_num at hπ ⊢
  linarith

/-- C6: whenever the held keys sum to a zero net movement direction — in
particular with no movement keys held, or with opposing keys (such as
forward and back) held simultaneously — `update_position` returns the
camera unchanged for every `dt`: `normalize_or_zero` maps the zero sum to
the zero direction without dividing by zero, and the position advances by
the zero vector. -/
theorem C6_zero_net_direction (c : Camera) (key_down : KeyCode → Bool) (dt : ℝ)
    (h : c.movement_sum key_down = Vec3.zero) :
    c.update_position key_down dt = c := by
  simp only [Camera.update_position, h, Vec3.normalize_or_zero_zero, Vec3.smul_zero_vec,
    Vec3.add_zero_vec]

/-- C6 witness: with the opposing forward and back keys both held, the
summed direction cancels to zero and `update_position` leaves the concrete
camera `camera0` unchanged at `dt = 1`. -/
theorem C6_witness : camera0.update_position key_down_ws 1 = camera0 := by
  refine C6_zero_net_direction camera0 key_down_ws 1 ?_
  simp only [Camera.movement_sum, Camera.direction_mapping, key_down_ws]
  simp [Vec3.add_def, Vec3.neg_def, Vec3.zero_def, Vec3.with_y, Vec3.zero]

/-- C7: with exactly the forward key held, `dt = 1` and sprint not held,
the position advances by a displacement whose Y component is zero, whose
magnitude is exactly `movement_sensitivity`, and which lies along the
current planar forward direction (the forward vector with its Y component
zeroed, normalized). Hypotheses: the planar forward direction is nonzero
(the camera is not looking exactly straight up or down) and the
sensitivity is nonnegative. -/
theorem C7_forward_step (c : Camera)
    (h : c.forward.with_y 0 ≠ Vec3.zero) (hs : 0 ≤ c.movement_sensitivity) :
    ((c.update_position key_down_w 1).position + -(c.position)).y = 0 ∧
    ((c.update_position key_down_w 1).position + -(c.position)).length
      = c.movement_sensitivity ∧
    (c.update_position key_down_w 1).position + -(c.position)
      = ((c.forward.with_y 0).smul (c.forward.with_y 0).length⁻¹).smul
          c.movement_sensitivity := by
  have hsum : c.movement_sum key_down_w = c.forward.with_y 0 := by
    simp only [Camera.movement_sum, Camera.direction_mapping, key_down_w]
    simp [Vec3.add_def, Vec3.zero_def, Vec3.with_y]
  have hnorm : (c.forward.with_y 0).normalize_or_zero
      = (c.forward.with_y 0).smul (c.forward.with_y 0).length⁻¹ :=
    Vec3.normalize_or_zero_of_ne _ h
  have hlpos : 0 < (c.forward.with_y 0).length := Vec3.length_pos _ h
  have hup : (c.update_position key_down_w 1).position
      = c.position + ((((c.movement_sum key_down_w).normalize_or_zero).smul 1).smul
          c.movement_sensitivity).smul 1 := by
    simp only [Camera.update_position, key_down_w]
    norm_num
  have hdisp : (c.update_position key_down_w 1).position + -(c.position)
      = ((c.forward.with_y 0).smul (c.forward.with_y 0).length⁻¹).smul
          c.movement_sensitivity := by
    rw [hup, hsum, hnorm, Vec3.add_add_neg, Vec3.smul_smul, Vec3.smul_smul, Vec3.smul_smul,
      Vec3.smul_smul]
    norm_num
  refine ⟨?_, ?_, hdisp⟩
  · rw [hdisp]
    simp [Vec3.smul, Vec3.with_y]
  · rw [hdisp, Vec3.smul_smul, Vec3.length_smul,
      abs_of_nonneg (mul_nonneg (inv_nonneg.mpr hlpos.le) hs),
      mul_comm ((c.forward.with_y 0).length⁻¹) c.movement_sensitivity, mul_assoc,
      inv_mul_cancel₀ (ne_of_gt hlpos), mul_one]

/-- C7 witness: the concrete camera `camera0` (yaw 0, pitch 0, sensitivity
2) satisfies both hypotheses, and advancing it with only the forward key
held at `dt = 1` yields a level displacement of magnitude 2 along its
planar forward direction. -/
theorem C7_witness :
    camera0.forward.with_y 0 ≠ Vec3.zero ∧ 0 ≤ camera0.movement_sensitivity ∧
    (((camera0.update_position key_down_w 1).position + -(camera0.position)).y = 0 ∧
      ((camera0.update_position key_down_w 1).position + -(camera0.position)).length
        = camera0.movement_sensitivity ∧
      (camera0.update_position key_down_w 1).position + -(camera0.position)
        = ((camera0.forward.with_y 0).smul (camera0.forward.with_y 0).length⁻¹).smul
            camera0.movement_sensitivity) :=
  ⟨camera0_planar_ne, by norm_num [camera0],
    C7_forward_step camera0 camera0_planar_ne (by norm_num [camera0])⟩

end GPUTemplate
